import Mathlib

/-!
Verification of `create_offline_installer.py`: a shallow embedding of the
script's data and operations, followed by theorems settling the spec claims.

The script builds an offline Miniconda installer bundle: it resets build and
output directories, downloads an installer, installs a scratch Miniconda,
pins the python version, cleans and refetches the package cache, copies the
cached package archives into an offline channel, indexes that channel and
emits a platform-specific install script.
-/

/-! ## Platform model

The script branches on `sys.platform` (`win32`, `linux`, `darwin`) and
`platform.system()` (`Windows`, `Linux`, `Darwin`). -/

inductive Plat : Type
  | windows
  | linux
  | darwin
deriving DecidableEq, Repr

def sysPlatform : Plat → String
  | .windows => "win32"
  | .linux => "linux"
  | .darwin => "darwin"

def platformSystem : Plat → String
  | .windows => "Windows"
  | .linux => "Linux"
  | .darwin => "Darwin"

/-- `IS_WINDOWS = sys.platform == 'win32'`. -/
def IS_WINDOWS (p : Plat) : Bool := sysPlatform p == "win32"

/-- `os.sep` for the host platform. -/
def pathSep (p : Plat) : Char := if IS_WINDOWS p then '\\' else '/'

/-- `os.path.join(a, b)` for a relative second component. -/
def joinPath (p : Plat) (a b : String) : String :=
  a ++ String.singleton (pathSep p) ++ b

/-- The path separators `os.path.basename` splits on. -/
def basenameSeps (p : Plat) : List Char :=
  if IS_WINDOWS p then ['\\', '/'] else ['/']

/-- `os.path.basename`: the component after the last path separator. -/
def basename (p : Plat) (s : String) : String :=
  String.mk (((s.data.reverse.takeWhile (fun c => !((basenameSeps p).contains c))).reverse))

/-! ## Generic string helpers used by the embedding -/

/-- `sep.join` over already-split groups (inverse of a split). -/
def joinSep (sep : Char) : List (List Char) → List Char
  | [] => []
  | [g] => g
  | g :: g2 :: gs => g ++ sep :: joinSep sep (g2 :: gs)

/-- Python `str.split(sep)` for a one-character separator: `''` splits to
one empty group, and every separator occurrence opens a new group. -/
def splitSep (sep : Char) : List Char → List (List Char)
  | [] => [[]]
  | c :: rest =>
    match splitSep sep rest with
    | [] => [[]]
    | g :: gs => if c = sep then [] :: g :: gs else (c :: g) :: gs

/-- `' '.join(xs)`. -/
def joinSpace : List String → String
  | [] => ""
  | [s] => s
  | s :: s2 :: rest => s ++ " " ++ joinSpace (s2 :: rest)

/-! ## The `package_name` regular expression

`package_name` is `re.match(r"(.*)-\d.*", filename).group(1)`.  With a greedy
`(.*)` (which cannot cross a newline), group 1 is the longest prefix of the
input that is immediately followed by `'-'` and a decimal digit; when no such
prefix exists `re.match` returns `None` and `.group(1)` raises.  `lddAux`
scans for the last position `i` such that the character at `i` is `'-'`, the
character at `i+1` is a digit, and no newline occurs before `i`. -/

def lddAux : List Char → Nat → Option Nat → Option Nat
  | [], _, acc => acc
  | [_], _, acc => acc
  | c :: d :: rest, i, acc =>
    if c = '\n' then acc
    else lddAux (d :: rest) (i + 1) (if c == '-' && d.isDigit then some i else acc)

/-- `MinicondaOfflineInstaller.package_name`; `none` models the raised
`AttributeError` when the regular expression does not match. -/
def package_name (s : String) : Option String :=
  match lddAux s.data 0 none with
  | some i => some (String.mk (s.data.take i))
  | none => none

/-- Whether a character list contains `'-'` immediately followed by a digit. -/
def hasDashDigit : List Char → Bool
  | [] => false
  | [_] => false
  | c :: d :: rest => (c == '-' && d.isDigit) || hasDashDigit (d :: rest)

/-! ## `AnacondaMixin` class data

`extensions`, `platforms` and `architectures` are the mixin's dictionaries;
`installer_name` renders
`'{0}{1}-{2}-{3}-{4}.{5}'.format(distribution, conda_python_version, version,
platforms[system], architectures[bitness], extensions[system])`.
A missing dictionary key (`architectures` only holds `'64bit'`) is a
`KeyError`, modelled as `none`. -/

def extensions : Plat → String
  | .windows => "exe"
  | .linux => "sh"
  | .darwin => "sh"

def platforms : Plat → String
  | .windows => "Windows"
  | .linux => "Linux"
  | .darwin => "MacOSX"

def architectures (bitness : String) : Option String :=
  if bitness = "64bit" then some "x86_64" else none

def installer_name (distribution conda_python_version version : String)
    (system : Plat) (bitness : String) : Option String :=
  (architectures bitness).map fun arch =>
    distribution ++ conda_python_version ++ "-" ++ version ++ "-" ++
      platforms system ++ "-" ++ arch ++ "." ++ extensions system

/-! ## `MinicondaOfflineInstaller` constants -/

def miniconda_version : String := "4.7.12.1"
def ccdc_version : String := "-2"
def miniconda_distribution : String := "Miniconda"
def conda_python_version : String := "3"
def miniconda_name : String := "miniconda3"
def build_install_dir : String := "build_temp"

/-- The rendered installer filename for the `MinicondaOfflineInstaller`
parameters (its `bitness` is the class default `'64bit'`). -/
def miniconda_installer_name (p : Plat) : String :=
  miniconda_distribution ++ conda_python_version ++ "-" ++ miniconda_version ++ "-" ++
    platforms p ++ "-" ++ "x86_64" ++ "." ++ extensions p

def output_dir (p : Plat) : String :=
  joinPath p "output" (miniconda_name ++ "-" ++ miniconda_version ++ ccdc_version)

def output_installer (p : Plat) : String :=
  joinPath p (output_dir p) (miniconda_installer_name p)

def output_conda_offline_channel (p : Plat) : String :=
  joinPath p (output_dir p) "conda_offline_channel"

/-- `MinicondaOfflineInstaller.channel_arch` (the class `bitness` is `'64bit'`,
kept as a parameter to mirror the source's conditional). -/
def channel_arch (p : Plat) (bitness : String) : String :=
  if sysPlatform p = "win32" then
    (if bitness = "64bit" then "win-64" else "win-32")
  else if sysPlatform p = "darwin" then "osx-64"
  else "linux-64"

/-- `MinicondaOfflineInstaller.base_conda_packages`: the API packages followed
by the script packages. -/
def base_conda_packages : List String :=
  ["Pillow", "six", "lxml", "numpy", "matplotlib", "pytest"] ++
    ["docxtpl", "pockets", "docutils", "pygments", "sphinx", "pandas", "py-xgboost"]

/-- `AnacondaMixin.base_conda_packages` (overridden by the installer class). -/
def base_conda_packages_mixin (p : Plat) : List String :=
  ["conda-build", "conda-verify", "jinja2"] ++ (if IS_WINDOWS p then ["unxutils"] else [])

/-! ## Package-manager subprocess model

`_run_pkg_manager` copies the environment, sets `CONDARC`, prepends
`build_install_dir\Library\bin` to `PATH` on Windows, invokes the package
manager and, on a nonzero exit code, prints a diagnostic dump of the argument
list and environment and raises `RuntimeError`. -/

/-- Python `dict` assignment on an association-list environment. -/
def setEnv : List (String × String) → String → String → List (String × String)
  | [], k, v => [(k, v)]
  | (k', v') :: rest, k, v =>
    if k' = k then (k, v) :: rest else (k', v') :: setEnv rest k v

/-- `os.environ` lookup, `none` for a `KeyError`. -/
def getEnv (env : List (String × String)) (k : String) : Option String :=
  (env.find? (fun kv => kv.1 == k)).map Prod.snd

/-- `my_env` as built by `_run_pkg_manager`: `CONDARC` is pointed at the
bundled condarc and, on Windows, `Library\bin` is prepended to `PATH`
(`none` models the `KeyError` when Windows has no `PATH` variable). -/
def makeMyEnv (p : Plat) (scriptDir : String) (environ : List (String × String)) :
    Option (List (String × String)) :=
  let e1 := setEnv environ "CONDARC" (joinPath p scriptDir "condarc-for-offline-installer-creation")
  if IS_WINDOWS p then
    (getEnv e1 "PATH").map fun path =>
      setEnv e1 "PATH"
        (joinPath p (joinPath p build_install_dir "Library") "bin" ++ ";" ++ path)
  else some e1

/-- `AnacondaMixin._args_for`: the package-manager executable path. -/
def args_for (p : Plat) (executable_name : String) : String :=
  joinPath p (joinPath p build_install_dir (if IS_WINDOWS p then "Scripts" else "bin"))
    (executable_name ++ (if IS_WINDOWS p then ".exe" else ""))

/-- `AnacondaMixin._run_pkg_manager`, parameterised by the child process's
exit code.  Returns the printed lines and the raised/normal outcome. -/
def run_pkg_manager (p : Plat) (scriptDir : String) (environ : List (String × String))
    (pkg_manager_name : String) (extra_args package_specs : List String)
    (outcome : Int) : List String × Except String Unit :=
  match makeMyEnv p scriptDir environ with
  | none => ([], .error "KeyError: PATH")
  | some my_env =>
    let args := args_for p pkg_manager_name :: (extra_args ++ package_specs)
    if outcome ≠ 0 then
      (["_run_pkg_manager fail info", toString args, toString my_env],
        .error ("Could not install " ++ joinSpace package_specs ++ " with " ++ pkg_manager_name))
    else ([], .ok ())

/-! ## The conda invocations made by the run

Each wrapper builds the argument list `[self._args_for('conda')] + extra_args
+ list(package_specs)` and delegates to `_run_pkg_manager`. -/

/-- Argument list of `MinicondaOfflineInstaller.conda_install`
(`['install', '-y', '--download-only']` plus the package specs). -/
def conda_install_args (p : Plat) (package_specs : List String) : List String :=
  args_for p "conda" :: (["install", "-y", "--download-only"] ++ package_specs)

/-- Argument list of `AnacondaMixin.conda_install`
(`['install', '-y']` plus the package specs — no download-only flag). -/
def conda_install_mixin_args (p : Plat) (package_specs : List String) : List String :=
  args_for p "conda" :: (["install", "-y"] ++ package_specs)

/-- Argument list of `MinicondaOfflineInstaller.conda_cleanup`. -/
def conda_cleanup_args (p : Plat) : List String :=
  args_for p "conda" :: ["clean", "-y", "--all"]

/-- Argument list of `MinicondaOfflineInstaller.conda_update`. -/
def conda_update_args (p : Plat) : List String :=
  args_for p "conda" :: ["update", "-y", "--all"]

/-- The repodata patch file passed to `conda index`. -/
def patch_file (p : Plat) (scriptDir : String) : String :=
  joinPath p scriptDir "repodata-hotfixes/main.py"

/-- Argument list of `MinicondaOfflineInstaller.conda_index` (the channel is
part of `extra_args`; `package_specs` stays empty). -/
def conda_index_args (p : Plat) (scriptDir channel : String) : List String :=
  args_for p "conda" :: ["index", "-p", patch_file p scriptDir, channel]

/-- `MinicondaOfflineInstaller.index_offline_channel`, parameterised by the
exit codes of its two subprocesses.  The first call is
`AnacondaMixin.conda_install(self, 'conda-build')` wrapped in
`try: ... except: pass`; the second is `conda_index` on the offline channel. -/
def index_offline_channel (p : Plat) (scriptDir : String)
    (environ : List (String × String)) (installOutcome indexOutcome : Int) :
    List String × Except String Unit :=
  let r1 := run_pkg_manager p scriptDir environ "conda" ["install", "-y"]
    ["conda-build"] installOutcome
  let r2 := run_pkg_manager p scriptDir environ "conda"
    ["index", "-p", patch_file p scriptDir, output_conda_offline_channel p] [] indexOutcome
  (r1.1 ++ r2.1, r2.2)

/-! ## `copy_packages`

The source enumerates `build_temp/pkgs/*.bz2` then `build_temp/pkgs/*.conda`,
takes each file's basename, records `package_name(filename)` in the
`known_packages` set and copies the file to
`<output channel>/<channel_arch>/<filename>`.  The set is written, never
read.  A failed `package_name` extraction raises, aborting the step. -/

/-- `set.add` modelled on a duplicate-free list. -/
def insertSeen (nm : String) (known : List String) : List String :=
  if nm ∈ known then known else nm :: known

/-- One `for conda_package in glob.glob(...)` loop of `copy_packages`: returns
the chronological `(source, destination)` copy list and the final set. -/
def copy_packages_loop (p : Plat) (dest : String) :
    List String → List String → Except String (List (String × String) × List String)
  | [], known => .ok ([], known)
  | conda_package :: rest, known =>
    let filename := basename p conda_package
    match package_name filename with
    | none => .error ("AttributeError on " ++ filename)
    | some nm =>
      match copy_packages_loop p dest rest (insertSeen nm known) with
      | .error e => .error e
      | .ok (copies, known') =>
        .ok ((conda_package, joinPath p dest filename) :: copies, known')

/-- The copy list a loop produces, written without the `known_packages` set:
used to state that the set has no effect on what is copied. -/
def copy_list (p : Plat) (dest : String) : List String → Except String (List (String × String))
  | [] => .ok []
  | conda_package :: rest =>
    let filename := basename p conda_package
    match package_name filename with
    | none => .error ("AttributeError on " ++ filename)
    | some _ =>
      match copy_list p dest rest with
      | .error e => .error e
      | .ok copies => .ok ((conda_package, joinPath p dest filename) :: copies)

/-- The destination directory `os.path.join(self.output_conda_offline_channel,
self.channel_arch())`. -/
def conda_package_dest (p : Plat) : String :=
  joinPath p (output_conda_offline_channel p) (channel_arch p "64bit")

/-- `MinicondaOfflineInstaller.copy_packages` over the two glob result lists,
returning the chronological copy list. -/
def copy_packages (p : Plat) (bz2Files condaFiles : List String) :
    Except String (List (String × String)) :=
  let dest := conda_package_dest p
  match copy_packages_loop p dest bz2Files [] with
  | .error e => .error e
  | .ok (copies1, known1) =>
    match copy_packages_loop p dest condaFiles known1 with
    | .error e => .error e
    | .ok (copies2, _) => .ok (copies1 ++ copies2)

/-! ## Install-script templating

`write_install_script` picks the template for the platform and substitutes
`\x7b\x7b installer_exe \x7d\x7d` and `\x7b\x7b conda_packages \x7d\x7d` with
`str.replace`. -/

/-- Python `str.replace` (all non-overlapping occurrences, left to right) for
a nonempty pattern, on character lists.  The fuel argument makes the
recursion structural; every step consumes at least one character, so fuel
equal to the input length is always enough. -/
def listReplace (pat rep : List Char) : Nat → List Char → List Char
  | 0, l => l
  | _ + 1, [] => []
  | fuel + 1, c :: rest =>
    if !pat.isEmpty && pat.isPrefixOf (c :: rest) then
      rep ++ listReplace pat rep fuel ((c :: rest).drop pat.length)
    else
      c :: listReplace pat rep fuel rest

/-- `str.replace` on strings. -/
def strReplace (s pat rep : String) : String :=
  String.mk (listReplace pat.data rep.data s.data.length s.data)

/-- `MinicondaOfflineInstaller.windows_install_script`. -/
def windows_install_script : String :=
  "@echo off\nif x%~s1==x (\n  echo \"install target_dir [ccdc_packages_and_package_name_pairs...]\"\n  goto end\n)\nsetlocal\nset installer_dir=%~dps0\nstart /wait \"\" \"%installer_dir%\x7b\x7b installer_exe \x7d\x7d\" /AddToPath=0 /S /D=%~s1\ncall %~s1\\Scripts\\activate\ncall conda install -y --channel \"%installer_dir%conda_offline_channel\" --offline --override-channels \x7b\x7b conda_packages \x7d\x7d\nshift\n:next_package\nif not \"%1\" == \"\" (\n    call conda install -y --channel \"%installer_dir%%1_conda_channel\" --offline --override-channels %2\n    shift\n    shift\n    goto next_package\n)\nendlocal\n:end\n"

/-- `MinicondaOfflineInstaller.unix_install_script`. -/
def unix_install_script : String :=
  "#!/bin/sh\nif test $# -eq 0 ; then\n    echo \x27install target_dir [ccdc_packages_and_package_name_pairs...]\x27\n    exit 1\nfi\nINSTALLER_DIR=$(dirname -- \"$0\")\nchmod +x $INSTALLER_DIR/\x7b\x7b installer_exe \x7d\x7d\n$INSTALLER_DIR/\x7b\x7b installer_exe \x7d\x7d -b -p $1\nunset PYTHONPATH\nunset PYTHONHOME\n. $1/bin/activate \"\"\nconda install -y --channel \"$INSTALLER_DIR/conda_offline_channel\" --offline --override-channels \x7b\x7b conda_packages \x7d\x7d\nshift\nwhile test $# -gt 1\ndo\n    conda install -y --channel \"$INSTALLER_DIR/$1_conda_channel\" --offline --override-channels $2\n    shift\n    shift\ndone\n"

/-- The text rendered by `write_install_script`, as a function of the base
package list (the run passes `self.base_conda_packages()`). -/
def write_install_script_text (p : Plat) (pkgs : List String) : String :=
  let installer_exe := basename p (output_installer p)
  let script := if sysPlatform p = "win32" then windows_install_script else unix_install_script
  let s1 := strReplace script "\x7b\x7b installer_exe \x7d\x7d" installer_exe
  strReplace s1 "\x7b\x7b conda_packages \x7d\x7d" (joinSpace pkgs)

/-- The script emitted by the run itself. -/
def emitted_install_script (p : Plat) : String :=
  write_install_script_text p base_conda_packages

/-- Substring test (used to state what the rendered scripts contain). -/
def containsSub (s sub : String) : Bool :=
  go sub.data s.data
where
  go (pat : List Char) : List Char → Bool
    | [] => pat.isEmpty
    | c :: rest => pat.isPrefixOf (c :: rest) || go pat rest

/-- Split a text into its lines (separator `'\n'`). -/
def splitLines (s : String) : List (List Char) := splitSep '\n' s.data

/-! ## Directory reset model

`clean_build_and_output` runs `shutil.rmtree` on the output directory and the
build directory, each wrapped in `try: ... except: pass`; `build` then
recreates both with `os.makedirs` (which raises if the directory exists).
The filesystem is an association list from directory path to its (recursive)
contents; `rmtree` drops the whole entry. -/

abbrev FS : Type := List (String × List String)

/-- Directory lookup: `some contents` when the directory exists. -/
def fsFind : FS → String → Option (List String)
  | [], _ => none
  | (k, v) :: rest, q => if k = q then some v else fsFind rest q

/-- `shutil.rmtree` under `try: ... except: pass`. -/
def rmtree_silent (fs : FS) (path : String) : FS :=
  List.filter (fun kv => kv.1 ≠ path) fs

/-- `os.makedirs` (raises `FileExistsError` when the directory exists). -/
def makedirs (fs : FS) (path : String) : Except String FS :=
  match fsFind fs path with
  | some _ => .error ("FileExistsError: " ++ path)
  | none => .ok ((path, []) :: fs)

/-- `MinicondaOfflineInstaller.clean_build_and_output`. -/
def clean_build_and_output (p : Plat) (fs : FS) : FS :=
  rmtree_silent (rmtree_silent fs (output_dir p)) build_install_dir

/-- The reset prelude of `build`: clean both directories, then
`os.makedirs(self.build_install_dir)` and `os.makedirs(self.output_dir)`. -/
def build_reset (p : Plat) (fs : FS) : Except String FS :=
  match makedirs (clean_build_and_output p fs) build_install_dir with
  | .error e => .error e
  | .ok fs1 => makedirs fs1 (output_dir p)

/-! ## The `build` pipeline as a step sequence

`build` runs its statements in a fixed textual order with no conditionals, no
loops and no exception handling of its own, so an uncaught exception in any
step propagates to the caller (`MinicondaOfflineInstaller().build()`). -/

inductive Step : Type
  | reset
  | download
  | condarcCheck
  | installAnaconda
  | pinPython
  | condaCleanup
  | condaUpdate
  | condaInstallBase
  | copyPackages
  | indexChannel
  | writeScript
deriving DecidableEq, Repr

/-- The textual order of the statements of `MinicondaOfflineInstaller.build`. -/
def buildOrder : List Step :=
  [.reset, .download, .condarcCheck, .installAnaconda, .pinPython, .condaCleanup,
   .condaUpdate, .condaInstallBase, .copyPackages, .indexChannel, .writeScript]

/-- The ten steps named by the specification's pipeline description (the
condarc presence check only prints and cannot fail). -/
def specOrder : List Step :=
  [.reset, .download, .installAnaconda, .pinPython, .condaCleanup,
   .condaUpdate, .condaInstallBase, .copyPackages, .indexChannel, .writeScript]

/-- Run a list of steps in order given each step's outcome: stop at the first
step that raises, returning the executed trace and the surfaced result. -/
def runSteps {E : Type} (beh : Step → Except E Unit) : List Step → List Step × Except E Unit
  | [] => ([], .ok ())
  | s :: rest =>
    match beh s with
    | .error e => ([s], .error e)
    | .ok () =>
      match runSteps beh rest with
      | (tr, r) => (s :: tr, r)

/-- `MinicondaOfflineInstaller.build`. -/
def build {E : Type} (beh : Step → Except E Unit) : List Step × Except E Unit :=
  runSteps beh buildOrder

/-! ## Windows PATH cleanup (`remove_from_system_path`)

The registry-value transformation at the heart of `remove_from_system_path`:
split the `PATH` value on `os.pathsep` (`';'` — this function only exists on
Windows), drop every entry whose expanded (`sz_expand`, applied only to
`REG_EXPAND_SZ` values) and normalized (`normcase(normpath(...))`) form
equals the normalized requested path, keep every other entry verbatim, and
write the rejoined value back only when something was dropped.  `norm` models
`normcase ∘ normpath` and `expand` models `ExpandEnvironmentStrings`. -/

def REG_EXPAND_SZ : Nat := 2

/-- `sz_expand`. -/
def sz_expand (expand : String → String) (value : String) (value_type : Nat) : String :=
  if value_type = REG_EXPAND_SZ then expand value else value

/-- The `for v in reg_value[0].split(os.pathsep)` loop: returns `any_change`
and `results`. -/
def removePathLoop (isMatch : List Char → Bool) :
    List (List Char) → Bool × List (List Char)
  | [] => (false, [])
  | v :: rest =>
    match removePathLoop isMatch rest with
    | (any_change, results) =>
      if isMatch v then (true, results) else (any_change, v :: results)

/-- The pure value transformation of `remove_from_system_path` on one
registry value: `some` new value when a write-back happens, `none` when the
value is left untouched. -/
def remove_from_system_path_value (norm expand : String → String)
    (pathname value : String) (value_type : Nat) : Option String :=
  let pn := norm pathname
  let isMatch := fun (v : List Char) =>
    norm (sz_expand expand (String.mk v) value_type) == pn
  match removePathLoop isMatch (splitSep ';' value.data) with
  | (any_change, results) =>
    if any_change then some (String.mk (joinSep ';' results)) else none

/-! ## Installer filename patterns

`installer_name` carries the comment
`(Ana|Mini)conda-<VERSION>-<PLATFORM>-<ARCHITECTURE>.<EXTENSION>`.
`patternCore` checks `<VERSION>-<PLATFORM>-<ARCHITECTURE>.<EXTENSION>`:
exactly three dash-separated fields, the last being `arch.extension`. -/

/-- Check the `<VERSION>`, `<PLATFORM>` and `<ARCHITECTURE>.<EXTENSION>`
fields: all nonempty, the last one containing a dot. -/
def patternFields (v p ae : List Char) : Bool :=
  match splitSep '.' ae with
  | a :: e :: _ => !v.isEmpty && !p.isEmpty && !a.isEmpty && !e.isEmpty
  | _ => false

/-- The pattern documented in the source comment
(`(Ana|Mini)conda-<VERSION>-<PLATFORM>-<ARCHITECTURE>.<EXTENSION>`): the text
before the first hyphen is exactly the distribution name. -/
def matchesDocPattern (s : String) : Bool :=
  match splitSep '-' s.data with
  | [d, v, p, ae] =>
    (d == ("Anaconda".data) || d == ("Miniconda".data)) && patternFields v p ae
  | _ => false

/-- The pattern the code actually renders: the distribution name is
immediately followed by the conda python version `'3'`, then the hyphen. -/
def matchesCodePattern (s : String) : Bool :=
  match splitSep '-' s.data with
  | [d, v, p, ae] =>
    (d == ("Anaconda3".data) || d == ("Miniconda3".data)) && patternFields v p ae
  | _ => false

/-! ## Theorem-support lemmas for the regex scan -/

theorem lddAux_const : ∀ (l : List Char) (i : Nat) (acc : Option Nat),
    hasDashDigit l = false → lddAux l i acc = acc
  | [], _, _, _ => rfl
  | [_], _, _, _ => rfl
  | c :: d :: rest, i, acc, h => by
    simp only [hasDashDigit, Bool.or_eq_false_iff, Bool.and_eq_false_iff] at h
    by_cases hc : c = '\n'
    · simp [lddAux, hc]
    · have hcd : (c == '-' && d.isDigit) = false := by
        rcases h.1 with h1 | h1
        · simp [Bool.and_eq_false_iff, h1]
        · simp [Bool.and_eq_false_iff, h1]
      simp only [lddAux, if_neg hc, hcd, Bool.false_eq_true, if_false]
      exact lddAux_const (d :: rest) (i + 1) acc h.2

theorem lddAux_append : ∀ (xs ys : List Char) (i : Nat) (acc : Option Nat),
    '\n' ∉ xs → ys ≠ [] →
    ∃ acc2, lddAux (xs ++ ys) i acc = lddAux ys (i + xs.length) acc2
  | [], ys, i, acc, _, _ => ⟨acc, by simp⟩
  | x :: xs, ys, i, acc, hn, hy => by
    have hx : x ≠ '\n' := fun h => hn (h ▸ List.mem_cons_self x xs)
    have hxs : '\n' ∉ xs := fun h => hn (List.mem_cons_of_mem x h)
    cases hxy : xs ++ ys with
    | nil => exact absurd (List.append_eq_nil.mp hxy).2 hy
    | cons d rest =>
      have hstep : lddAux (x :: xs ++ ys) i acc =
          lddAux (xs ++ ys) (i + 1) (if x == '-' && d.isDigit then some i else acc) := by
        rw [List.cons_append, hxy]
        simp only [lddAux, if_neg hx]
      obtain ⟨acc2, h2⟩ := lddAux_append xs ys (i + 1)
        (if x == '-' && d.isDigit then some i else acc) hxs hy
      refine ⟨acc2, ?_⟩
      rw [hstep, h2]
      have : i + 1 + xs.length = i + (x :: xs).length := by
        rw [List.length_cons]; omega
      rw [this]

theorem hasDashDigit_cons_false {c d : Char} {rest : List Char}
    (h1 : (c == '-' && d.isDigit) = false)
    (h2 : hasDashDigit (d :: rest) = false) :
    hasDashDigit (c :: d :: rest) = false := by
  simp [hasDashDigit, h1, h2]

/-! ## Claim C3 -/

/-- Claim C3 (amended): for every filename of the form `name-1.2.3-build.ext`
in which the hyphen before the version is the last hyphen immediately
followed by a decimal digit (in particular the build field does not begin
with a digit), `package_name` returns exactly `name`. -/
theorem c3_package_name_amended (n b e : List Char)
    (hn : '\n' ∉ n)
    (hb : hasDashDigit ('-' :: (b ++ '.' :: e)) = false) :
    package_name
        (String.mk (n ++ '-' :: '1' :: '.' :: '2' :: '.' :: '3' :: '-' :: (b ++ '.' :: e)))
      = some (String.mk n) := by
  have h4 : hasDashDigit ('3' :: '-' :: (b ++ '.' :: e)) = false :=
    hasDashDigit_cons_false (by decide) hb
  have h3 : hasDashDigit ('.' :: '3' :: '-' :: (b ++ '.' :: e)) = false :=
    hasDashDigit_cons_false (by decide) h4
  have h2 : hasDashDigit ('2' :: '.' :: '3' :: '-' :: (b ++ '.' :: e)) = false :=
    hasDashDigit_cons_false (by decide) h3
  have h1 : hasDashDigit ('.' :: '2' :: '.' :: '3' :: '-' :: (b ++ '.' :: e)) = false :=
    hasDashDigit_cons_false (by decide) h2
  have h0 : hasDashDigit ('1' :: '.' :: '2' :: '.' :: '3' :: '-' :: (b ++ '.' :: e)) = false :=
    hasDashDigit_cons_false (by decide) h1
  obtain ⟨acc2, hsplit⟩ :=
    lddAux_append n ('-' :: '1' :: '.' :: '2' :: '.' :: '3' :: '-' :: (b ++ '.' :: e))
      0 none hn (by simp)
  have hstep : lddAux ('-' :: '1' :: '.' :: '2' :: '.' :: '3' :: '-' :: (b ++ '.' :: e))
      (0 + n.length) acc2
      = lddAux ('1' :: '.' :: '2' :: '.' :: '3' :: '-' :: (b ++ '.' :: e))
        (0 + n.length + 1) (some (0 + n.length)) := rfl
  have hconst : lddAux ('1' :: '.' :: '2' :: '.' :: '3' :: '-' :: (b ++ '.' :: e))
      (0 + n.length + 1) (some (0 + n.length)) = some (0 + n.length) :=
    lddAux_const _ _ _ h0
  have hall : lddAux (n ++ '-' :: '1' :: '.' :: '2' :: '.' :: '3' :: '-' :: (b ++ '.' :: e))
      0 none = some (0 + n.length) := by
    rw [hsplit, hstep, hconst]
  have htake : (n ++ '-' :: '1' :: '.' :: '2' :: '.' :: '3' :: '-' :: (b ++ '.' :: e)).take
      (0 + n.length) = n := by
    rw [Nat.zero_add]; exact List.take_left n _
  simp [package_name, hall, htake]

/-- Witness for `c3_package_name_amended` at the concrete filename
`six-1.2.3-py37_0.tar.bz2`. -/
theorem c3_package_name_amended_witness :
    package_name
        (String.mk (['s', 'i', 'x'] ++ '-' :: '1' :: '.' :: '2' :: '.' :: '3' :: '-' ::
          (['p', 'y', '3', '7', '_', '0'] ++ '.' :: ['t', 'a', 'r', '.', 'b', 'z', '2'])))
      = some (String.mk ['s', 'i', 'x']) :=
  c3_package_name_amended ['s', 'i', 'x'] ['p', 'y', '3', '7', '_', '0']
    ['t', 'a', 'r', '.', 'b', 'z', '2'] (by decide) (by decide)

/-- Counterexample to claim C3 as stated: the filename `x-1.2.3-0.ext` has
the form `name-1.2.3-build.ext` with `name = "x"`, `build = "0"` and
`ext = "ext"`, yet the greedy regular expression splits at the last
hyphen-digit occurrence and `package_name` returns `x-1.2.3`, not `x`. -/
theorem c3_counterexample :
    package_name "x-1.2.3-0.ext" = some "x-1.2.3" ∧
      package_name "x-1.2.3-0.ext" ≠ some "x" := by
  constructor
  · decide
  · decide

/-! ## Claims C2 and C10: the copy step -/

theorem copy_packages_loop_eq_copy_list (p : Plat) (dest : String) :
    ∀ (files : List String) (known : List String),
      Except.map Prod.fst (copy_packages_loop p dest files known) = copy_list p dest files
  | [], _ => rfl
  | f :: rest, known => by
    cases hpn : package_name (basename p f) with
    | none => simp only [copy_packages_loop, copy_list, hpn, Except.map]
    | some nm =>
      have ih := copy_packages_loop_eq_copy_list p dest rest (insertSeen nm known)
      cases hres : copy_packages_loop p dest rest (insertSeen nm known) with
      | error e =>
        have ih' : copy_list p dest rest = .error e := by
          rw [← ih, hres]; rfl
        simp only [copy_packages_loop, copy_list, hpn, hres, ih', Except.map]
      | ok pr =>
        have ih' : copy_list p dest rest = .ok pr.1 := by
          rw [← ih, hres]; rfl
        simp only [copy_packages_loop, copy_list, hpn, hres, ih', Except.map]

theorem copy_packages_loop_total (p : Plat) (dest : String) :
    ∀ (files : List String) (known : List String),
      (∀ f ∈ files, (package_name (basename p f)).isSome) →
      ∃ known', copy_packages_loop p dest files known =
        .ok (files.map (fun f => (f, joinPath p dest (basename p f))), known')
  | [], known, _ => ⟨known, rfl⟩
  | f :: rest, known, h => by
    have hf : (package_name (basename p f)).isSome := h f (List.mem_cons_self f rest)
    obtain ⟨nm, hnm⟩ := Option.isSome_iff_exists.mp hf
    obtain ⟨known', hrest⟩ := copy_packages_loop_total p dest rest (insertSeen nm known)
      (fun g hg => h g (List.mem_cons_of_mem f hg))
    refine ⟨known', ?_⟩
    simp only [copy_packages_loop, hnm, hrest, List.map_cons]

theorem copy_packages_loop_error_of_bad_name (p : Plat) (dest : String) :
    ∀ (files : List String) (known : List String) (f : String),
      f ∈ files → package_name (basename p f) = none →
      ∃ err, copy_packages_loop p dest files known = .error err
  | [], _, _, hf, _ => absurd hf (List.not_mem_nil _)
  | g :: rest, known, f, hf, hnone => by
    cases hpn : package_name (basename p g) with
    | none =>
      exact ⟨"AttributeError on " ++ basename p g, by simp only [copy_packages_loop, hpn]⟩
    | some nm =>
      have hfr : f ∈ rest := by
        rcases List.mem_cons.mp hf with h | h
        · subst h; rw [hpn] at hnone; exact absurd hnone (by simp)
        · exact h
      obtain ⟨err, herr⟩ :=
        copy_packages_loop_error_of_bad_name p dest rest (insertSeen nm known) f hfr hnone
      exact ⟨err, by simp only [copy_packages_loop, hpn, herr]⟩

/-- Claim C2: `copy_packages` copies every archive file handed to it by the
two globs into the platform/architecture-keyed subdirectory of the output
channel, and the `known_packages` set it accumulates has no effect on which
files are copied: the copy list of each loop is independent of the set
(first conjunct), and whenever every filename's package name extracts, the
result is exactly one copy per globbed file, in order, into
`conda_package_dest` (second conjunct). -/
theorem c2_copy_packages_unfiltered :
    (∀ (p : Plat) (dest : String) (files known1 known2 : List String),
      Except.map Prod.fst (copy_packages_loop p dest files known1) =
        Except.map Prod.fst (copy_packages_loop p dest files known2)) ∧
    (∀ (p : Plat) (bz2Files condaFiles : List String),
      (∀ f ∈ bz2Files ++ condaFiles, (package_name (basename p f)).isSome) →
      copy_packages p bz2Files condaFiles =
        .ok ((bz2Files ++ condaFiles).map
          (fun f => (f, joinPath p (conda_package_dest p) (basename p f))))) := by
  constructor
  · intro p dest files known1 known2
    rw [copy_packages_loop_eq_copy_list, copy_packages_loop_eq_copy_list]
  · intro p bz2Files condaFiles h
    have hbz2 : ∀ f ∈ bz2Files, (package_name (basename p f)).isSome :=
      fun f hf => h f (List.mem_append_left _ hf)
    have hconda : ∀ f ∈ condaFiles, (package_name (basename p f)).isSome :=
      fun f hf => h f (List.mem_append_right _ hf)
    obtain ⟨k1, h1⟩ := copy_packages_loop_total p (conda_package_dest p) bz2Files [] hbz2
    obtain ⟨k2, h2⟩ := copy_packages_loop_total p (conda_package_dest p) condaFiles k1 hconda
    simp only [copy_packages, h1, h2, List.map_append]

/-- Witness for `c2_copy_packages_unfiltered` on a concrete package cache. -/
theorem c2_copy_packages_unfiltered_witness :
    copy_packages Plat.linux
        ["build_temp/pkgs/six-1.15.0-py38.tar.bz2"] ["build_temp/pkgs/numpy-1.19.2-py38.conda"] =
      .ok ((["build_temp/pkgs/six-1.15.0-py38.tar.bz2", "build_temp/pkgs/numpy-1.19.2-py38.conda"]).map
        (fun f => (f, joinPath Plat.linux (conda_package_dest Plat.linux) (basename Plat.linux f)))) :=
  c2_copy_packages_unfiltered.2 Plat.linux
    ["build_temp/pkgs/six-1.15.0-py38.tar.bz2"] ["build_temp/pkgs/numpy-1.19.2-py38.conda"]
    (by decide)

/-- Claim C10: `package_name` is partial — on any string with no hyphen
immediately followed by a decimal digit the regular expression fails to
match, so `package_name` raises instead of returning (first conjunct), and
the copy step aborts whenever any globbed cache path has such a basename
(second conjunct). -/
theorem c10_package_name_no_match_raises :
    (∀ s : String, hasDashDigit s.data = false → package_name s = none) ∧
    (∀ (p : Plat) (path : String) (bz2Files condaFiles : List String),
      hasDashDigit (basename p path).data = false →
      path ∈ bz2Files ++ condaFiles →
      ∃ err, copy_packages p bz2Files condaFiles = .error err) := by
  have hnone : ∀ s : String, hasDashDigit s.data = false → package_name s = none := by
    intro s h
    simp [package_name, lddAux_const s.data 0 none h]
  constructor
  · exact hnone
  · intro p path bz2Files condaFiles h hmem
    have hpn : package_name (basename p path) = none := hnone _ h
    rcases List.mem_append.mp hmem with hin | hin
    · obtain ⟨err, herr⟩ := copy_packages_loop_error_of_bad_name p (conda_package_dest p)
        bz2Files [] path hin hpn
      exact ⟨err, by simp only [copy_packages, herr]⟩
    · cases hres : copy_packages_loop p (conda_package_dest p) bz2Files [] with
      | error e => exact ⟨e, by simp only [copy_packages, hres]⟩
      | ok pr =>
        obtain ⟨err, herr⟩ := copy_packages_loop_error_of_bad_name p (conda_package_dest p)
          condaFiles pr.2 path hin hpn
        refine ⟨err, ?_⟩
        simp only [copy_packages, hres, herr]

/-- Witness for `c10_package_name_no_match_raises`: a cached archive named
`readme.bz2` makes `package_name` raise and the copy step abort. -/
theorem c10_package_name_no_match_raises_witness :
    package_name "readme.bz2" = none ∧
      ∃ err, copy_packages Plat.linux ["build_temp/pkgs/readme.bz2"] [] = .error err :=
  ⟨c10_package_name_no_match_raises.1 "readme.bz2" (by decide),
   c10_package_name_no_match_raises.2 Plat.linux "build_temp/pkgs/readme.bz2"
     ["build_temp/pkgs/readme.bz2"] [] (by decide) (by decide)⟩

/-! ## Claim C4: exit-code handling in `_run_pkg_manager` -/

/-- Claim C4: when the child process exits nonzero, `_run_pkg_manager` prints
the failing argument list and environment and raises a `RuntimeError`; when
the child exits zero it returns normally, printing nothing. -/
theorem c4_run_pkg_manager_exit_handling (p : Plat) (scriptDir : String)
    (environ : List (String × String)) (pkg_manager_name : String)
    (extra_args package_specs : List String) (outcome : Int)
    (my_env : List (String × String))
    (henv : makeMyEnv p scriptDir environ = some my_env) :
    (outcome ≠ 0 →
      run_pkg_manager p scriptDir environ pkg_manager_name extra_args package_specs outcome =
        (["_run_pkg_manager fail info",
          toString (args_for p pkg_manager_name :: (extra_args ++ package_specs)),
          toString my_env],
         .error ("Could not install " ++ joinSpace package_specs ++ " with " ++ pkg_manager_name))) ∧
    (outcome = 0 →
      run_pkg_manager p scriptDir environ pkg_manager_name extra_args package_specs outcome =
        ([], .ok ())) := by
  constructor <;> intro h <;> simp [run_pkg_manager, henv, h]

/-- Witness for `c4_run_pkg_manager_exit_handling`: a failing (`exit 1`)
`conda install` on Linux. -/
theorem c4_run_pkg_manager_exit_handling_witness :
    run_pkg_manager Plat.linux "/src" [] "conda" ["install", "-y"] ["Pillow"] 1 =
      (["_run_pkg_manager fail info",
        toString (args_for Plat.linux "conda" :: (["install", "-y"] ++ ["Pillow"])),
        toString [("CONDARC", joinPath Plat.linux "/src" "condarc-for-offline-installer-creation")]],
       .error ("Could not install " ++ joinSpace ["Pillow"] ++ " with " ++ "conda")) :=
  (c4_run_pkg_manager_exit_handling Plat.linux "/src" [] "conda" ["install", "-y"] ["Pillow"] 1
    [("CONDARC", joinPath Plat.linux "/src" "condarc-for-offline-installer-creation")] rfl).1
    (by decide)

/-! ## Claim C9: the index step -/

/-- Claim C9: `index_offline_channel` swallows any failure of its preliminary
`conda-build` installation and proceeds to index the channel regardless (its
outcome depends only on the index exit code, and indexing succeeds even when
the preliminary install failed); the preliminary step is the base-class
`conda_install`, whose argument list is a real `install -y` without
`--download-only`, unlike the overridden `conda_install` used for every
package fetch of the run, whose argument list always carries
`--download-only`. -/
theorem c9_index_offline_channel_swallows (p : Plat) (scriptDir : String)
    (environ : List (String × String)) (my_env : List (String × String))
    (henv : makeMyEnv p scriptDir environ = some my_env) :
    (∀ i1 i1' i2 : Int,
      (index_offline_channel p scriptDir environ i1 i2).2 =
        (index_offline_channel p scriptDir environ i1' i2).2) ∧
    (∀ i1 : Int, (index_offline_channel p scriptDir environ i1 0).2 = .ok ()) ∧
    ("--download-only" ∉ conda_install_mixin_args p ["conda-build"]) ∧
    (∀ package_specs, "--download-only" ∈ conda_install_args p package_specs) := by
  refine ⟨fun i1 i1' i2 => rfl, fun i1 => ?_, ?_, fun specs => ?_⟩
  · simp [index_offline_channel, run_pkg_manager, henv]
  · cases p <;> decide
  · simp [conda_install_args]

/-- Witness for `c9_index_offline_channel_swallows`: with a failing
preliminary install (`exit 5`) and a successful index (`exit 0`), the step
still succeeds; and the preliminary argument list has no download-only
flag. -/
theorem c9_index_offline_channel_swallows_witness :
    (index_offline_channel Plat.linux "/src" [] 5 0).2 = Except.ok () ∧
      "--download-only" ∉ conda_install_mixin_args Plat.linux ["conda-build"] :=
  ⟨(c9_index_offline_channel_swallows Plat.linux "/src" []
      [("CONDARC", joinPath Plat.linux "/src" "condarc-for-offline-installer-creation")] rfl).2.1 5,
   (c9_index_offline_channel_swallows Plat.linux "/src" []
      [("CONDARC", joinPath Plat.linux "/src" "condarc-for-offline-installer-creation")] rfl).2.2.1⟩

/-! ## Claim C1: the pipeline -/

theorem runSteps_all_ok {E : Type} (beh : Step → Except E Unit) :
    ∀ l : List Step, (∀ s ∈ l, beh s = .ok ()) → runSteps beh l = (l, .ok ())
  | [], _ => rfl
  | s :: rest, h => by
    have hs : beh s = .ok () := h s (List.mem_cons_self s rest)
    have ih := runSteps_all_ok beh rest (fun t ht => h t (List.mem_cons_of_mem s ht))
    simp only [runSteps, hs, ih]

theorem runSteps_first_error {E : Type} (beh : Step → Except E Unit) :
    ∀ (pre : List Step) (s : Step) (post : List Step) (e : E),
      (∀ t ∈ pre, beh t = .ok ()) → beh s = .error e →
      runSteps beh (pre ++ s :: post) = (pre ++ [s], .error e)
  | [], s, post, e, _, hs => by simp only [List.nil_append, runSteps, hs]
  | t :: pre, s, post, e, hpre, hs => by
    have ht : beh t = .ok () := hpre t (List.mem_cons_self t pre)
    have ih := runSteps_first_error beh pre s post e
      (fun u hu => hpre u (List.mem_cons_of_mem t hu)) hs
    simp only [List.cons_append, runSteps, ht, List.append_eq, ih]

/-- Claim C1: `build` is a single forward-only sequence of steps in the fixed
textual order `buildOrder` (which contains the specification's ten steps in
their stated order as a sublist — the extra step is the print-only condarc
presence check): when every step succeeds the whole order runs exactly once
(no retry, no skip), and when a step raises, the run executes exactly the
steps before it plus the failing step and terminates with that error
surfaced to the caller. -/
theorem c1_build_pipeline {E : Type} (beh : Step → Except E Unit) :
    ((∀ s ∈ buildOrder, beh s = .ok ()) → build beh = (buildOrder, .ok ())) ∧
    (∀ (pre : List Step) (s : Step) (post : List Step) (e : E),
      buildOrder = pre ++ s :: post →
      (∀ t ∈ pre, beh t = .ok ()) → beh s = .error e →
      build beh = (pre ++ [s], .error e)) ∧
    List.Sublist specOrder buildOrder := by
  refine ⟨fun h => runSteps_all_ok beh buildOrder h, ?_, ?_⟩
  · intro pre s post e horder hpre hs
    unfold build
    rw [horder]
    exact runSteps_first_error beh pre s post e hpre hs
  · decide

/-- Witness for `c1_build_pipeline`: with every step succeeding, the run
executes the full fixed order and returns success. -/
theorem c1_build_pipeline_witness :
    build (E := String) (fun _ => Except.ok ()) = (buildOrder, Except.ok ()) :=
  (c1_build_pipeline (E := String) (fun _ => Except.ok ())).1 (fun _ _ => rfl)

/-! ## Claim C7: the reset step -/

theorem fsFind_rmtree (path : String) :
    ∀ fs : FS, fsFind (rmtree_silent fs path) path = none
  | [] => rfl
  | (k, v) :: rest => by
    have ih := fsFind_rmtree path rest
    by_cases hk : k = path
    · simpa [rmtree_silent, List.filter_cons, hk] using ih
    · simpa [rmtree_silent, List.filter_cons, hk, fsFind] using ih

theorem fsFind_filter_none (q : String) (pred : String × List String → Bool) :
    ∀ fs : FS, fsFind fs q = none → fsFind (List.filter pred fs) q = none
  | [], _ => rfl
  | (k, v) :: rest, h => by
    have hk : ¬k = q := by
      intro hkq
      simp [fsFind, hkq] at h
    have hrest : fsFind rest q = none := by
      simpa [fsFind, hk] using h
    cases hpred : pred (k, v) <;>
      simp [List.filter_cons, hpred, fsFind, hk, fsFind_filter_none q pred rest hrest]

/-- Claim C7: at the start of every run the build scratch directory and the
output directory are fully removed by `clean_build_and_output` (first two
conjuncts), and the subsequent `makedirs` calls of `build` succeed and leave
both directories empty — so a second run starts from empty directories no
matter what state the first run left behind. -/
theorem c7_reset_leaves_no_residue (p : Plat) (fs : FS) :
    fsFind (clean_build_and_output p fs) build_install_dir = none ∧
    fsFind (clean_build_and_output p fs) (output_dir p) = none ∧
    ∃ fs', build_reset p fs = .ok fs' ∧
      fsFind fs' build_install_dir = some [] ∧ fsFind fs' (output_dir p) = some [] := by
  have hne : build_install_dir ≠ output_dir p := by cases p <;> decide
  have h1 : fsFind (clean_build_and_output p fs) build_install_dir = none :=
    fsFind_rmtree build_install_dir (rmtree_silent fs (output_dir p))
  have h2 : fsFind (clean_build_and_output p fs) (output_dir p) = none :=
    fsFind_filter_none (output_dir p) _ (rmtree_silent fs (output_dir p))
      (fsFind_rmtree (output_dir p) fs)
  refine ⟨h1, h2, (output_dir p, []) :: (build_install_dir, []) :: clean_build_and_output p fs,
    ?_, ?_, ?_⟩
  · simp only [build_reset, makedirs, h1, fsFind, if_neg hne, h2]
  · simp [fsFind, Ne.symm hne]
  · simp [fsFind]

/-! ## Claim C6: PATH cleanup -/

theorem removePathLoop_any_filter (isM : List Char → Bool) :
    ∀ l : List (List Char),
      removePathLoop isM l = (l.any isM, l.filter (fun v => !(isM v)))
  | [] => rfl
  | v :: rest => by
    simp only [removePathLoop, removePathLoop_any_filter isM rest]
    cases hm : isM v <;> simp [List.any_cons, List.filter_cons, hm]

/-- Claim C6: on a registry `PATH` value, the cleanup removes exactly the
entries whose expanded-then-normalized form equals the normalized target
path, keeps every other entry in its original order and original unexpanded
text (the result is the `filter` of the original split entries), and writes
back only when at least one entry matched. -/
theorem c6_remove_from_system_path_value (norm expand : String → String)
    (pathname value : String) (value_type : Nat) :
    remove_from_system_path_value norm expand pathname value value_type =
      (if (splitSep ';' value.data).any
          (fun v => norm (sz_expand expand (String.mk v) value_type) == norm pathname) then
        some (String.mk (joinSep ';'
          ((splitSep ';' value.data).filter
            (fun v => !(norm (sz_expand expand (String.mk v) value_type) == norm pathname)))))
      else none) := by
  simp only [remove_from_system_path_value, removePathLoop_any_filter]

/-! ## Claim C5: the emitted install script -/

set_option maxRecDepth 8192 in
/-- Claim C5: on every platform the emitted install script's literal text
contains the installer filename and the space-joined base package list in
declared order; and on a non-Windows platform, rendering the unix template
with base package list `['Pillow','six']` yields a script whose offline
`conda install` line ends with `Pillow six`. -/
theorem c5_install_script_text :
    (∀ p : Plat,
      containsSub (emitted_install_script p) (miniconda_installer_name p) = true ∧
      containsSub (emitted_install_script p) (joinSpace base_conda_packages) = true ∧
      joinSpace base_conda_packages =
        "Pillow six lxml numpy matplotlib pytest docxtpl pockets docutils pygments sphinx pandas py-xgboost") ∧
    (∀ p : Plat, p ≠ Plat.windows →
      ("conda install -y --channel \"$INSTALLER_DIR/conda_offline_channel\" --offline --override-channels Pillow six").data
          ∈ splitLines (write_install_script_text p ["Pillow", "six"]) ∧
      List.isSuffixOf ("Pillow six").data
        ("conda install -y --channel \"$INSTALLER_DIR/conda_offline_channel\" --offline --override-channels Pillow six").data
        = true) := by
  constructor
  · intro p
    cases p <;> exact ⟨by decide, by decide, by decide⟩
  · intro p hp
    cases p
    · exact absurd rfl hp
    · exact ⟨by decide, by decide⟩
    · exact ⟨by decide, by decide⟩

set_option maxRecDepth 8192 in
/-- Witness for `c5_install_script_text` on Linux: the rendered scenario
script contains the full offline install line ending in `Pillow six`. -/
theorem c5_install_script_text_witness :
    ("conda install -y --channel \"$INSTALLER_DIR/conda_offline_channel\" --offline --override-channels Pillow six").data
        ∈ splitLines (write_install_script_text Plat.linux ["Pillow", "six"]) :=
  (c5_install_script_text.2 Plat.linux (by decide)).1

/-! ## Claim C8: the installer filename pattern -/

theorem splitSep_ne_nil (sep : Char) : ∀ l : List Char, splitSep sep l ≠ []
  | [] => by simp [splitSep]
  | c :: rest => by
    have ih := splitSep_ne_nil sep rest
    cases h : splitSep sep rest with
    | nil => exact absurd h ih
    | cons g gs => by_cases hc : c = sep <;> simp [splitSep, h, hc]

theorem splitSep_no_sep (sep : Char) : ∀ l : List Char, sep ∉ l → splitSep sep l = [l]
  | [], _ => rfl
  | c :: rest, h => by
    have hc : ¬c = sep := fun hcc => h (by rw [← hcc]; exact List.mem_cons_self c rest)
    have hrest := splitSep_no_sep sep rest (fun hm => h (List.mem_cons_of_mem c hm))
    simp [splitSep, hrest, hc]

theorem splitSep_append (sep : Char) : ∀ (v rest : List Char), sep ∉ v →
    splitSep sep (v ++ sep :: rest) = v :: splitSep sep rest
  | [], rest, _ => by
    cases h : splitSep sep rest with
    | nil => exact absurd h (splitSep_ne_nil sep rest)
    | cons g gs => simp [splitSep, h]
  | c :: v, rest, h => by
    have hc : ¬c = sep := fun hcc => h (by rw [← hcc]; exact List.mem_cons_self c v)
    have ih := splitSep_append sep v rest (fun hm => h (List.mem_cons_of_mem c hm))
    cases hsp : splitSep sep (v ++ sep :: rest) with
    | nil => exact absurd hsp (splitSep_ne_nil sep _)
    | cons g gs =>
      rw [hsp] at ih
      injection ih with hg hgs
      subst hg
      subst hgs
      simp [splitSep, List.cons_append, hsp, hc]

theorem matchesCodePattern_decomp (dpart plpart aepart ver : List Char) (s : String)
    (hd : dpart = ("Anaconda3").data ∨ dpart = ("Miniconda3").data)
    (hddash : '-' ∉ dpart) (hver : ver ≠ []) (hdash : '-' ∉ ver)
    (hpl : '-' ∉ plpart) (hplne : plpart ≠ [])
    (hae : '-' ∉ aepart)
    (haefields : (match splitSep '.' aepart with
      | a :: e :: _ => !a.isEmpty && !e.isEmpty
      | _ => false) = true)
    (hs : s.data = dpart ++ ('-' :: (ver ++ '-' :: (plpart ++ '-' :: aepart)))) :
    matchesCodePattern s = true := by
  have hv' : ver.isEmpty = false := by
    cases ver
    · exact absurd rfl hver
    · rfl
  have hp' : plpart.isEmpty = false := by
    cases plpart
    · exact absurd rfl hplne
    · rfl
  unfold matchesCodePattern
  rw [hs, splitSep_append _ _ _ hddash, splitSep_append _ _ _ hdash,
    splitSep_append _ _ _ hpl, splitSep_no_sep _ _ hae]
  show ((dpart == ("Anaconda3").data || dpart == ("Miniconda3").data)
      && patternFields ver plpart aepart) = true
  unfold patternFields
  cases hsp : splitSep '.' aepart with
  | nil => rw [hsp] at haefields; simp at haefields
  | cons a tail =>
    cases tail with
    | nil => rw [hsp] at haefields; simp at haefields
    | cons e rest =>
      rw [hsp] at haefields
      obtain ⟨ha, he⟩ := Bool.and_eq_true_iff.mp haefields
      rcases hd with hd | hd <;> subst hd <;> simp [hv', hp', ha, he]

/-- Counterexample to claim C8 as stated: for the program's own inputs
(distribution `Miniconda`, version `4.7.12.1`, 64-bit Linux) the rendered
filename is `Miniconda3-4.7.12.1-Linux-x86_64.sh`; the text before its first
hyphen is `Miniconda3`, not the distribution name, so the filename does not
match the documented pattern
`(Ana|Mini)conda-<VERSION>-<PLATFORM>-<ARCHITECTURE>.<EXTENSION>`. -/
theorem c8_counterexample :
    installer_name "Miniconda" conda_python_version miniconda_version Plat.linux "64bit" =
        some "Miniconda3-4.7.12.1-Linux-x86_64.sh" ∧
      matchesDocPattern "Miniconda3-4.7.12.1-Linux-x86_64.sh" = false ∧
      (splitSep '-' ("Miniconda3-4.7.12.1-Linux-x86_64.sh").data).head? =
        some (("Miniconda3").data) ∧
      ("Miniconda3").data ≠ ("Miniconda").data ∧
      ("Miniconda3").data ≠ ("Anaconda").data :=
  ⟨by decide, by decide, by decide, by decide, by decide⟩

/-- Claim C8 (amended): for either distribution name, any nonempty
hyphen-free version string, any platform, and the one supported architecture
key `64bit`, the rendered installer filename matches the corrected pattern
`(Ana|Mini)conda<PYTHON-VERSION>-<VERSION>-<PLATFORM>-<ARCHITECTURE>.<EXTENSION>`
(the distribution name is immediately followed by the conda python
version). -/
theorem c8_installer_name_amended (dist ver : String) (p : Plat) (s : String)
    (hdist : dist = "Anaconda" ∨ dist = "Miniconda")
    (hver : ver.data ≠ []) (hdash : '-' ∉ ver.data)
    (hs : installer_name dist conda_python_version ver p "64bit" = some s) :
    matchesCodePattern s = true := by
  have hsv : s = dist ++ conda_python_version ++ "-" ++ ver ++ "-" ++
      platforms p ++ "-" ++ "x86_64" ++ "." ++ extensions p := by
    simp only [installer_name, architectures, if_pos rfl, Option.map_some] at hs
    exact (Option.some.inj hs).symm
  rcases hdist with hd | hd <;> subst hd <;> cases p
  · exact matchesCodePattern_decomp ("Anaconda3").data ("Windows").data ("x86_64.exe").data
      ver.data s (Or.inl rfl) (by decide) hver hdash (by decide) (by decide) (by decide)
      (by decide)
      (by rw [hsv]; simp only [String.data_append]; simp only [List.append_assoc]; rfl)
  · exact matchesCodePattern_decomp ("Anaconda3").data ("Linux").data ("x86_64.sh").data
      ver.data s (Or.inl rfl) (by decide) hver hdash (by decide) (by decide) (by decide)
      (by decide)
      (by rw [hsv]; simp only [String.data_append]; simp only [List.append_assoc]; rfl)
  · exact matchesCodePattern_decomp ("Anaconda3").data ("MacOSX").data ("x86_64.sh").data
      ver.data s (Or.inl rfl) (by decide) hver hdash (by decide) (by decide) (by decide)
      (by decide)
      (by rw [hsv]; simp only [String.data_append]; simp only [List.append_assoc]; rfl)
  · exact matchesCodePattern_decomp ("Miniconda3").data ("Windows").data ("x86_64.exe").data
      ver.data s (Or.inr rfl) (by decide) hver hdash (by decide) (by decide) (by decide)
      (by decide)
      (by rw [hsv]; simp only [String.data_append]; simp only [List.append_assoc]; rfl)
  · exact matchesCodePattern_decomp ("Miniconda3").data ("Linux").data ("x86_64.sh").data
      ver.data s (Or.inr rfl) (by decide) hver hdash (by decide) (by decide) (by decide)
      (by decide)
      (by rw [hsv]; simp only [String.data_append]; simp only [List.append_assoc]; rfl)
  · exact matchesCodePattern_decomp ("Miniconda3").data ("MacOSX").data ("x86_64.sh").data
      ver.data s (Or.inr rfl) (by decide) hver hdash (by decide) (by decide) (by decide)
      (by decide)
      (by rw [hsv]; simp only [String.data_append]; simp only [List.append_assoc]; rfl)

/-- Witness for `c8_installer_name_amended` at the program's parameters on
Linux. -/
theorem c8_installer_name_amended_witness :
    matchesCodePattern "Miniconda3-4.7.12.1-Linux-x86_64.sh" = true :=
  c8_installer_name_amended "Miniconda" "4.7.12.1" Plat.linux
    "Miniconda3-4.7.12.1-Linux-x86_64.sh" (Or.inr rfl) (by decide) (by decide) (by decide)
